import Mathlib

/-!
Verification of the NeuraVeil front-end's bulk-prediction orchestration and
history-aggregation engine.  The definitions below are a shallow embedding of
the TypeScript source in `src/app/(tabs)/_layout.tsx` and
`src/app/(tabs)/history.tsx`: JavaScript numbers are modelled as exact
rationals, arrays as lists, the AsyncStorage key-value store as an explicit
record of optional lists, and the per-item remote call of the bulk loop as an
abstract outcome (transport failure, non-ok response, or a parsed success
payload).
-/

namespace NeuraVeil

/-- The fixed label set, in source order (`_layout.tsx` line 67). -/
def CLASS_LABELS : List String := ["Glioma", "No Tumor", "Meningioma", "Pituitary"]

/-- Batch size cap (`_layout.tsx` line 70). -/
def MAX_BULK_IMAGES : Nat := 500

/-- `Number(x.toFixed(2))` for a nonnegative value: round to the nearest
hundredth, ties away from zero (upward for the nonnegative inputs that occur
here). -/
def round2 (q : ℚ) : ℚ := ((⌊q * 100 + 1 / 2⌋ : ℤ) : ℚ) / 100

/-- `Math.max(...xs)` over a nonempty spread array.  The `[]` case never
arises on the paths modelled here (the server's probability vector is spread
into the call); `0` is a placeholder for JavaScript's `-Infinity`. -/
def maxOf : List ℚ → ℚ
  | [] => 0
  | x :: xs => xs.foldl max x

/-- Outcome of one item of the bulk loop (`_layout.tsx` lines 293-333):
the `catch` path (network-level failure), a non-`ok` response (skipped with
no tally), or a parsed JSON payload with `class` and `probability` fields. -/
inductive ItemOutcome where
  | transportError : ItemOutcome
  | remoteError : ItemOutcome
  | success : String → List ℚ → ItemOutcome
deriving DecidableEq

/-- Whether the remote call for this item succeeded (`fetchResponse.ok`). -/
def ItemOutcome.isSuccess : ItemOutcome → Bool
  | .success _ _ => true
  | _ => false

/-- A well-formed success payload: nonempty probability vector with every
entry in `[0,1]` (failures are unconstrained). -/
def ItemOutcome.wf : ItemOutcome → Prop
  | .success _ probability => probability ≠ [] ∧ ∀ p ∈ probability, 0 ≤ p ∧ p ≤ 1
  | _ => True

instance : DecidablePred ItemOutcome.wf := by
  intro o
  cases o <;> simp [ItemOutcome.wf] <;> infer_instance

/-- The running tallies of a bulk run: the four per-class counters of the
`results` object together with the four confidence-sample arrays of the
`accuracies` object (`_layout.tsx` lines 272-291). -/
structure Tallies where
  glioma : Nat
  meningioma : Nat
  pituitary : Nat
  noTumor : Nat
  gliomaSamples : List ℚ
  meningiomaSamples : List ℚ
  pituitarySamples : List ℚ
  noTumorSamples : List ℚ
deriving DecidableEq

/-- All counters `0`, all sample arrays empty (`_layout.tsx` lines 272-291). -/
def initTallies : Tallies := ⟨0, 0, 0, 0, [], [], [], []⟩

/-- One iteration of the bulk loop body (`_layout.tsx` lines 293-333): a
thrown error or a non-ok response leaves the tallies untouched; an ok
response is dispatched on `data.class` by the `switch`, which increments the
matching counter and appends `Math.max(...data.probability) * 100` to the
matching sample array, and does nothing for an unrecognized label (the
`switch` has no `default` case). -/
def bulkStep (t : Tallies) (o : ItemOutcome) : Tallies :=
  match o with
  | .transportError => t
  | .remoteError => t
  | .success label probability =>
    let maxProbability := maxOf probability
    if label = "Glioma" then
      { t with glioma := t.glioma + 1,
               gliomaSamples := t.gliomaSamples ++ [maxProbability * 100] }
    else if label = "Meningioma" then
      { t with meningioma := t.meningioma + 1,
               meningiomaSamples := t.meningiomaSamples ++ [maxProbability * 100] }
    else if label = "Pituitary" then
      { t with pituitary := t.pituitary + 1,
               pituitarySamples := t.pituitarySamples ++ [maxProbability * 100] }
    else if label = "No Tumor" then
      { t with noTumor := t.noTumor + 1,
               noTumorSamples := t.noTumorSamples ++ [maxProbability * 100] }
    else t

/-- The whole `for (const asset of bulkImages.assets)` loop, folded over the
per-item outcomes in batch order. -/
def bulkRun (items : List ItemOutcome) : Tallies := items.foldl bulkStep initTallies

/-- `xs.reduce((a, b) => a + b, 0)` (`_layout.tsx` lines 336-345). -/
def sumList (l : List ℚ) : ℚ := l.foldl (fun a b => a + b) 0

/-- Per-class mean confidence (`_layout.tsx` lines 335-346):
`length > 0 ? Number((sum / length).toFixed(2)) : 0`. -/
def meanAccuracy (samples : List ℚ) : ℚ :=
  if 0 < samples.length then round2 (sumList samples / (samples.length : ℚ)) else 0

/-- The persisted bulk aggregate record (`BulkPredictionResult`,
`_layout.tsx` lines 30-42). -/
structure BulkPredictionResult where
  glioma : Nat
  meningioma : Nat
  pituitary : Nat
  noTumor : Nat
  modelName : String
  timestamp : String
  gliomaAccuracy : ℚ
  meningiomaAccuracy : ℚ
  pituitaryAccuracy : ℚ
  noTumorAccuracy : ℚ
  isGrayscale : Bool
deriving DecidableEq

/-- The aggregation performed by `processBulkImages` (`_layout.tsx` lines
265-350): fold the loop body over the batch, then fill in the four mean
accuracies.  Model name, timestamp and the grayscale flag are the ambient
component state read when the `results` object is created. -/
def processBulkImages (modelName timestamp : String) (isGrayscaleEnabled : Bool)
    (items : List ItemOutcome) : BulkPredictionResult :=
  let t := bulkRun items
  { glioma := t.glioma
    meningioma := t.meningioma
    pituitary := t.pituitary
    noTumor := t.noTumor
    modelName := modelName
    timestamp := timestamp
    gliomaAccuracy := meanAccuracy t.gliomaSamples
    meningiomaAccuracy := meanAccuracy t.meningiomaSamples
    pituitaryAccuracy := meanAccuracy t.pituitarySamples
    noTumorAccuracy := meanAccuracy t.noTumorSamples
    isGrayscale := isGrayscaleEnabled }

/-- A single-prediction history record (`Prediction`, `_layout.tsx` lines
14-22; the `class` field is rendered here as `classLabel`).  The probability
vector is optional because the JSON merged from the server may omit it. -/
structure Prediction where
  classLabel : String
  probability : Option (List ℚ)
  imageUri : String
  modelName : String
  preprocessFunction : String
  note : String
  timestamp : String
deriving DecidableEq

/-- `history.unshift(r); history.slice(0, cap)` — prepend then truncate, the
shared insertion path of both bounded logs. -/
def boundedInsert {α : Type} (cap : Nat) (r : α) (l : List α) : List α :=
  (r :: l).take cap

/-- Insertion into the single-prediction log, cap 10 (`_layout.tsx` lines
243-247). -/
def insertSinglePrediction (r : Prediction) (l : List Prediction) : List Prediction :=
  boundedInsert 10 r l

/-- Insertion into the bulk-aggregate log, cap 50 (`_layout.tsx` lines
352-358). -/
def insertBulkRecord (r : BulkPredictionResult) (l : List BulkPredictionResult) :
    List BulkPredictionResult :=
  boundedInsert 50 r l

/-- `bulkPredictionHistory.filter(item => item.timestamp !== timestamp)`
(`_layout.tsx` line 381). -/
def deleteHistoryItem (timestamp : String) (l : List BulkPredictionResult) :
    List BulkPredictionResult :=
  l.filter (fun item => item.timestamp != timestamp)

/-- The AsyncStorage key-value store: the two persistence keys
(`predictionHistory`, `bulkPredictionHistory`), each either absent or
holding a JSON-serialized list. -/
structure Store where
  predictionHistory : Option (List Prediction)
  bulkPredictionHistory : Option (List BulkPredictionResult)
deriving DecidableEq

/-- The store together with the in-memory history state of the two screens:
`history` (`history.tsx` line 31) and `bulkPredictionHistory`
(`_layout.tsx` line 61). -/
structure AppState where
  store : Store
  history : List Prediction
  bulkPredictionHistory : List BulkPredictionResult
deriving DecidableEq

/-- `loadHistory` (`history.tsx` lines 36-48): read `predictionHistory`; if
present, set the in-memory list to the first 10 parsed records; if absent,
leave the in-memory list alone.  The store is not written. -/
def loadSingleHistory (s : AppState) : AppState :=
  match s.store.predictionHistory with
  | some stored => { s with history := stored.take 10 }
  | none => s

/-- `loadBulkPredictionHistory` (`_layout.tsx` lines 115-124): read
`bulkPredictionHistory`; if present, replace the in-memory list; if absent,
leave it alone. -/
def loadBulkHistory (s : AppState) : AppState :=
  match s.store.bulkPredictionHistory with
  | some stored => { s with bulkPredictionHistory := stored }
  | none => s

/-- `refreshBulkPredictionHistory` (`_layout.tsx` lines 364-376): re-read
the store, replacing the in-memory list (with `[]` when the key is absent);
does not merge. -/
def refreshBulkHistory (s : AppState) : AppState :=
  match s.store.bulkPredictionHistory with
  | some stored => { s with bulkPredictionHistory := stored }
  | none => { s with bulkPredictionHistory := [] }

/-- `resetHistory` (`history.tsx` lines 54-62): remove the
`predictionHistory` key and clear the in-memory list. -/
def resetSingleHistory (s : AppState) : AppState :=
  { s with store := { s.store with predictionHistory := none }, history := [] }

/-- `deleteHistoryItem` (`_layout.tsx` lines 379-388): filter the in-memory
bulk list by timestamp, set it, and write it back through the store. -/
def deleteBulkRecord (timestamp : String) (s : AppState) : AppState :=
  let updatedHistory := deleteHistoryItem timestamp s.bulkPredictionHistory
  { s with bulkPredictionHistory := updatedHistory,
           store := { s.store with bulkPredictionHistory := some updatedHistory } }

/-- The in-memory part of a note edit (`history.tsx` lines 66-68):
`updatedHistory[index].note = note` on a copy of the array.  An index past
the end leaves the list unchanged (the screen only produces in-range
indices). -/
def updateNoteMem : List Prediction → Nat → String → List Prediction
  | [], _, _ => []
  | p :: rest, 0, note => { p with note := note } :: rest
  | p :: rest, Nat.succ index, note => p :: updateNoteMem rest index note

/-- Result of a note edit: the new state plus whether a persistence failure
was reported (the `catch` with `console.error`, `history.tsx` lines 72-74). -/
structure NoteEditResult where
  state : AppState
  failureReported : Bool
deriving DecidableEq

/-- `updateNote` (`history.tsx` lines 65-75): update the record's note in
memory unconditionally, then attempt to persist the whole list; on
persistence failure the in-memory edit stays and the failure is reported. -/
def updateNote (s : AppState) (index : Nat) (note : String) (persistOk : Bool) :
    NoteEditResult :=
  let updatedHistory := updateNoteMem s.history index note
  if persistOk then
    ⟨{ s with history := updatedHistory,
              store := { s.store with predictionHistory := some updatedHistory } }, false⟩
  else
    ⟨{ s with history := updatedHistory }, true⟩

/-- `x.toFixed(2)` rendered as a string, for the nonnegative percentages
formatted here: the rounded hundredths written with two decimal digits. -/
def toFixed2Str (q : ℚ) : String :=
  let n : ℤ := ⌊q * 100 + 1 / 2⌋
  let whole : ℤ := n / 100
  let frac : Nat := (n % 100).toNat
  toString whole ++ "." ++ (if frac < 10 then "0" ++ toString frac else toString frac)

/-- `formatProbabilities` (`_layout.tsx` lines 429-437): a missing vector or
one whose length differs from the label set yields the fixed fallback
message; otherwise each label is paired with `probabilities[index] * 100`
formatted to two decimals. -/
def formatProbabilities (probabilities : Option (List ℚ)) : String :=
  match probabilities with
  | none => "Olasılıklar hesaplanamadı."
  | some ps =>
    if ps.length ≠ CLASS_LABELS.length then "Olasılıklar hesaplanamadı."
    else String.intercalate "\n"
      ((List.range CLASS_LABELS.length).map (fun index =>
        CLASS_LABELS.getD index "" ++ ": %" ++ toFixed2Str (ps.getD index 0 * 100)))

/-- `formatProbabilities` in the history screen (`history.tsx` lines 78-87):
same guard, English fallback, `label: p%` layout. -/
def formatProbabilitiesHistory (probabilities : Option (List ℚ)) : String :=
  match probabilities with
  | none => "Probabilities could not be calculated."
  | some ps =>
    if ps.length ≠ CLASS_LABELS.length then "Probabilities could not be calculated."
    else String.intercalate "\n"
      ((List.range CLASS_LABELS.length).map (fun index =>
        CLASS_LABELS.getD index "" ++ ": " ++ toFixed2Str (ps.getD index 0 * 100) ++ "%"))

/-- The `reduce` of `getHighestProbabilityClass` (`_layout.tsx` lines
443-444): the index of the first strict maximum. -/
def argmaxIndex (ps : List ℚ) : Nat :=
  (List.range ps.length).foldl
    (fun maxIndex index => if ps.getD maxIndex 0 < ps.getD index 0 then index else maxIndex) 0

/-- `getHighestProbabilityClass` (`_layout.tsx` lines 439-446): wrong-length
or missing vector yields the fixed fallback label. -/
def getHighestProbabilityClass (probabilities : Option (List ℚ)) : String :=
  match probabilities with
  | none => "Bilinmeyen"
  | some ps =>
    if ps.length ≠ CLASS_LABELS.length then "Bilinmeyen"
    else CLASS_LABELS.getD (argmaxIndex ps) ""

/-! ## Helper lemmas -/

theorem boundedInsert_succ {α : Type} (cap : Nat) (r : α) (l : List α) :
    boundedInsert (cap + 1) r l = r :: l.take cap := rfl

theorem boundedInsert_at_cap {α : Type} (cap : Nat) (r : α) (l : List α)
    (h : l.length = cap + 1) :
    (boundedInsert (cap + 1) r l).length = cap + 1 ∧
      (boundedInsert (cap + 1) r l).head? = some r ∧
      boundedInsert (cap + 1) r l = r :: l.dropLast := by
  have htake : l.take cap = l.dropLast := by
    rw [List.dropLast_eq_take, h, Nat.add_sub_cancel]
  refine ⟨?_, ?_, ?_⟩
  · rw [boundedInsert_succ, htake]
    simp [List.dropLast_eq_take, h, List.length_take]
  · rw [boundedInsert_succ]
    rfl
  · rw [boundedInsert_succ, htake]

theorem deleteHistoryItem_eq_self (ts : String) (l : List BulkPredictionResult)
    (h : ∀ r ∈ l, r.timestamp ≠ ts) : deleteHistoryItem ts l = l := by
  rw [deleteHistoryItem, List.filter_eq_self]
  intro r hr
  simpa using h r hr

theorem deleteHistoryItem_eq_eraseP (ts : String) (l : List BulkPredictionResult)
    (hnd : (l.map (fun r => r.timestamp)).Nodup) :
    deleteHistoryItem ts l = l.eraseP (fun r => r.timestamp == ts) := by
  induction l with
  | nil => rfl
  | cons x xs ih =>
    simp only [List.map_cons, List.nodup_cons, List.mem_map] at hnd
    obtain ⟨hx, hxs⟩ := hnd
    by_cases hts : x.timestamp = ts
    · have hrest : ∀ r ∈ xs, r.timestamp ≠ ts := by
        intro r hr hcontra
        exact hx ⟨r, hr, by rw [hcontra, hts]⟩
      rw [List.eraseP_cons_of_pos (by simpa using hts)]
      have := deleteHistoryItem_eq_self ts xs hrest
      simpa [deleteHistoryItem, hts] using this
    · rw [List.eraseP_cons_of_neg (by simpa using hts)]
      have := ih hxs
      simpa [deleteHistoryItem, hts] using this

/-! ## Claim theorems -/

/-- C5: inserting into a bounded log prepends the new record at the head and
truncates to the cap (10 for single predictions, 50 for bulk aggregates);
at cap, the result has exactly cap records, the new record first, the
previously oldest record dropped and the rest in their prior order. -/
theorem bounded_log_insertion :
    (∀ (r : Prediction) (l : List Prediction),
      insertSinglePrediction r l = (r :: l).take 10 ∧
      (l.length = 10 →
        (insertSinglePrediction r l).length = 10 ∧
        (insertSinglePrediction r l).head? = some r ∧
        insertSinglePrediction r l = r :: l.dropLast)) ∧
    (∀ (r : BulkPredictionResult) (l : List BulkPredictionResult),
      insertBulkRecord r l = (r :: l).take 50 ∧
      (l.length = 50 →
        (insertBulkRecord r l).length = 50 ∧
        (insertBulkRecord r l).head? = some r ∧
        insertBulkRecord r l = r :: l.dropLast)) := by
  constructor
  · intro r l
    exact ⟨rfl, fun h => boundedInsert_at_cap 9 r l h⟩
  · intro r l
    exact ⟨rfl, fun h => boundedInsert_at_cap 49 r l h⟩

/-- A concrete single-prediction record, used to instantiate log claims. -/
def samplePrediction : Prediction :=
  ⟨"Glioma", some [1, 0, 0, 0], "file:image.jpg", "model-a", "pre", "", "2025-01-01"⟩

/-- A concrete bulk-aggregate record with a parameterizable timestamp. -/
def sampleBulkRecord (ts : String) : BulkPredictionResult :=
  ⟨1, 0, 0, 0, "model-a", ts, 90, 0, 0, 0, false⟩

theorem bounded_log_insertion_witness :
    (List.replicate 10 samplePrediction).length = 10 ∧
    insertSinglePrediction samplePrediction (List.replicate 10 samplePrediction) =
      samplePrediction :: (List.replicate 10 samplePrediction).dropLast ∧
    (List.replicate 50 (sampleBulkRecord "a")).length = 50 ∧
    insertBulkRecord (sampleBulkRecord "a") (List.replicate 50 (sampleBulkRecord "a")) =
      sampleBulkRecord "a" :: (List.replicate 50 (sampleBulkRecord "a")).dropLast :=
  ⟨by simp,
   ((bounded_log_insertion.1 samplePrediction _).2 (by simp)).2.2,
   by simp,
   ((bounded_log_insertion.2 (sampleBulkRecord "a") _).2 (by simp)).2.2⟩

/-- C6: over a log whose timestamps are pairwise distinct (the data model
uses `createdAt` as the unique identifier), deleting by timestamp removes
exactly the matching record, leaving the rest in order, and is a no-op
(no error) when no record matches. -/
theorem deleteBulkRecord_spec (ts : String) (l : List BulkPredictionResult)
    (hnd : (l.map (fun r => r.timestamp)).Nodup) :
    deleteHistoryItem ts l = l.eraseP (fun r => r.timestamp == ts) ∧
    ((∃ r ∈ l, r.timestamp = ts) → (deleteHistoryItem ts l).length + 1 = l.length) ∧
    ((∀ r ∈ l, r.timestamp ≠ ts) → deleteHistoryItem ts l = l) := by
  refine ⟨deleteHistoryItem_eq_eraseP ts l hnd, ?_, deleteHistoryItem_eq_self ts l⟩
  rintro ⟨r, hr, hts⟩
  rw [deleteHistoryItem_eq_eraseP ts l hnd]
  exact List.length_eraseP_add_one hr (by simpa using hts)

theorem deleteBulkRecord_spec_witness :
    ((([sampleBulkRecord "a", sampleBulkRecord "b"] :
        List BulkPredictionResult).map (fun r => r.timestamp)).Nodup) ∧
    (deleteHistoryItem "b" [sampleBulkRecord "a", sampleBulkRecord "b"]).length + 1 =
      ([sampleBulkRecord "a", sampleBulkRecord "b"] : List BulkPredictionResult).length :=
  ⟨by decide,
   (deleteBulkRecord_spec "b" [sampleBulkRecord "a", sampleBulkRecord "b"]
      (by decide)).2.1 ⟨sampleBulkRecord "b", by decide, rfl⟩⟩

/-- C7: each History View Controller operation, retried with the store
unchanged in between, produces the same store contents and in-memory
history as running it once (`op (op s) = op s`). -/
theorem history_ops_idempotent (s : AppState) (ts : String) :
    loadSingleHistory (loadSingleHistory s) = loadSingleHistory s ∧
    loadBulkHistory (loadBulkHistory s) = loadBulkHistory s ∧
    resetSingleHistory (resetSingleHistory s) = resetSingleHistory s ∧
    deleteBulkRecord ts (deleteBulkRecord ts s) = deleteBulkRecord ts s ∧
    refreshBulkHistory (refreshBulkHistory s) = refreshBulkHistory s := by
  refine ⟨?_, ?_, rfl, ?_, ?_⟩
  · cases h : s.store.predictionHistory <;> simp [loadSingleHistory, h]
  · cases h : s.store.bulkPredictionHistory <;> simp [loadBulkHistory, h]
  · simp [deleteBulkRecord, deleteHistoryItem, List.filter_filter]
  · cases h : s.store.bulkPredictionHistory <;> simp [refreshBulkHistory, h]

theorem updateNoteMem_getElem_self :
    ∀ (l : List Prediction) (index : Nat) (note : String),
      (updateNoteMem l index note)[index]? =
        l[index]?.map (fun p => { p with note := note })
  | [], _, _ => by simp [updateNoteMem]
  | p :: rest, 0, note => by simp [updateNoteMem]
  | p :: rest, Nat.succ index, note => by
    simp [updateNoteMem, updateNoteMem_getElem_self rest index note]

theorem updateNoteMem_getElem_ne :
    ∀ (l : List Prediction) (index j : Nat) (note : String), j ≠ index →
      (updateNoteMem l index note)[j]? = l[j]?
  | [], _, _, _, _ => by simp [updateNoteMem]
  | p :: rest, 0, 0, note, h => absurd rfl h
  | p :: rest, 0, Nat.succ j, note, h => by simp [updateNoteMem]
  | p :: rest, Nat.succ index, 0, note, h => by simp [updateNoteMem]
  | p :: rest, Nat.succ index, Nat.succ j, note, h => by
    simp [updateNoteMem, updateNoteMem_getElem_ne rest index j note (fun hc => h (by rw [hc]))]

/-- C8: a note edit at a valid index updates exactly that record's note in
the in-memory log; when persistence fails, the edit stays in memory (no
rollback), the store is untouched, and the failure is reported. -/
theorem note_edit_semantics (s : AppState) (index : Nat) (note : String)
    (persistOk : Bool) (h : index < s.history.length) :
    (∃ p, s.history[index]? = some p ∧
      ((updateNote s index note persistOk).state.history)[index]? =
        some { p with note := note }) ∧
    (∀ j, j ≠ index →
      ((updateNote s index note persistOk).state.history)[j]? = s.history[j]?) ∧
    (persistOk = false →
      (updateNote s index note persistOk).state.store = s.store ∧
      (updateNote s index note persistOk).failureReported = true ∧
      (updateNote s index note persistOk).state.history = updateNoteMem s.history index note) := by
  have hhist : (updateNote s index note persistOk).state.history =
      updateNoteMem s.history index note := by
    cases persistOk <;> rfl
  refine ⟨?_, ?_, ?_⟩
  · refine ⟨s.history.get ⟨index, h⟩, ?_, ?_⟩
    · simp [List.getElem?_eq_getElem h]
    · rw [hhist, updateNoteMem_getElem_self, List.getElem?_eq_getElem h]
      rfl
  · intro j hj
    rw [hhist, updateNoteMem_getElem_ne s.history index j note hj]
  · intro hfail
    subst hfail
    exact ⟨rfl, rfl, rfl⟩

theorem note_edit_semantics_witness :
    (0 < ([samplePrediction] : List Prediction).length) ∧
    (updateNote ⟨⟨none, none⟩, [samplePrediction], []⟩ 0 "hi" false).state.store =
      (⟨none, none⟩ : Store) ∧
    (updateNote ⟨⟨none, none⟩, [samplePrediction], []⟩ 0 "hi" false).failureReported = true :=
  ⟨by simp,
   ((note_edit_semantics ⟨⟨none, none⟩, [samplePrediction], []⟩ 0 "hi" false
      (by simp)).2.2 rfl).1,
   ((note_edit_semantics ⟨⟨none, none⟩, [samplePrediction], []⟩ 0 "hi" false
      (by simp)).2.2 rfl).2.1⟩

/-- C9: a missing probability vector or one whose length differs from the
4-label set makes every formatting operation return its fixed fallback
(no out-of-bounds indexing is possible — the functions are total), and a
correct-length vector is formatted as the per-label percentage listing. -/
theorem probability_format_fallback (ps : List ℚ) :
    formatProbabilities none = "Olasılıklar hesaplanamadı." ∧
    formatProbabilitiesHistory none = "Probabilities could not be calculated." ∧
    getHighestProbabilityClass none = "Bilinmeyen" ∧
    (ps.length ≠ 4 →
      formatProbabilities (some ps) = "Olasılıklar hesaplanamadı." ∧
      formatProbabilitiesHistory (some ps) = "Probabilities could not be calculated." ∧
      getHighestProbabilityClass (some ps) = "Bilinmeyen") ∧
    (ps.length = 4 →
      formatProbabilities (some ps) = String.intercalate "\n"
        (List.zipWith (fun label p => label ++ ": %" ++ toFixed2Str (p * 100))
          CLASS_LABELS ps)) := by
  have hlen : CLASS_LABELS.length = 4 := rfl
  refine ⟨rfl, rfl, rfl, ?_, ?_⟩
  · intro hne
    refine ⟨?_, ?_, ?_⟩ <;>
      simp [formatProbabilities, formatProbabilitiesHistory, getHighestProbabilityClass,
        hlen, hne]
  · intro h4
    rcases ps with _ | ⟨a, _ | ⟨b, _ | ⟨c, _ | ⟨d, _ | ⟨e, tl⟩⟩⟩⟩⟩ <;>
      simp only [List.length] at h4 <;> try omega
    rfl

theorem probability_format_fallback_witness :
    (([(1 : ℚ), 0] : List ℚ).length ≠ 4) ∧
    formatProbabilities (some [(1 : ℚ), 0]) = "Olasılıklar hesaplanamadı." ∧
    getHighestProbabilityClass (some [(1 : ℚ), 0]) = "Bilinmeyen" :=
  ⟨by simp,
   ((probability_format_fallback [(1 : ℚ), 0]).2.2.2.1 (by simp)).1,
   ((probability_format_fallback [(1 : ℚ), 0]).2.2.2.1 (by simp)).2.2⟩

theorem bulkStep_not_success (t : Tallies) (o : ItemOutcome) (h : o.isSuccess = false) :
    bulkStep t o = t := by
  cases o with
  | transportError => rfl
  | remoteError => rfl
  | success label probability => simp [ItemOutcome.isSuccess] at h

theorem foldl_bulkStep_filter (items : List ItemOutcome) :
    ∀ t : Tallies,
      (items.filter (fun o => o.isSuccess)).foldl bulkStep t = items.foldl bulkStep t := by
  induction items with
  | nil => intro t; rfl
  | cons o rest ih =>
    intro t
    cases h : o.isSuccess with
    | true => simp [List.filter_cons, h, ih]
    | false => simp [List.filter_cons, h, ih, bulkStep_not_success t o h]

/-- C1 counterexample: a one-item batch whose single item fails produces a
record identical to the record of the empty batch, so the final
`BulkPredictionResult` cannot report the number of skipped items — no
failure count exists in the record or the aggregation. -/
theorem bulk_failure_count_missing :
    processBulkImages "model-a" "t0" false [ItemOutcome.transportError] =
      processBulkImages "model-a" "t0" false [] := rfl

/-- C1 amended: the bulk loop skips failed items and continues, but tracks
no running failure count and reports nothing about skipped items: the
aggregate record is invariant under deleting every failed item from the
batch. -/
theorem bulk_failures_leave_no_trace (modelName timestamp : String)
    (isGrayscaleEnabled : Bool) (items : List ItemOutcome) :
    processBulkImages modelName timestamp isGrayscaleEnabled items =
      processBulkImages modelName timestamp isGrayscaleEnabled
        (items.filter (fun o => o.isSuccess)) := by
  unfold processBulkImages bulkRun
  rw [foldl_bulkStep_filter items initTallies]

/-- C10: an ok response whose `class` string is none of the four labels is
silently dropped by the `switch` — no counter, no sample, no failure
registration (the tallies are unchanged) — and hence a batch exists whose
four counts sum to strictly less than its number of ok items. -/
theorem unknown_label_silently_excluded :
    (∀ (t : Tallies) (label : String) (probability : List ℚ),
      label ∉ CLASS_LABELS → bulkStep t (ItemOutcome.success label probability) = t) ∧
    ((processBulkImages "model-a" "t0" false
        [ItemOutcome.success "Tumor" [1, 0, 0, 0]]).glioma +
      (processBulkImages "model-a" "t0" false
        [ItemOutcome.success "Tumor" [1, 0, 0, 0]]).meningioma +
      (processBulkImages "model-a" "t0" false
        [ItemOutcome.success "Tumor" [1, 0, 0, 0]]).pituitary +
      (processBulkImages "model-a" "t0" false
        [ItemOutcome.success "Tumor" [1, 0, 0, 0]]).noTumor = 0 ∧
      ([ItemOutcome.success "Tumor" [1, 0, 0, 0]] :
        List ItemOutcome).countP (fun o => o.isSuccess) = 1) := by
  refine ⟨?_, rfl, rfl⟩
  intro t label probability h
  simp only [CLASS_LABELS, List.mem_cons, List.not_mem_nil, or_false, not_or] at h
  obtain ⟨h1, h2, h3, h4⟩ := h
  simp [bulkStep, h1, h2, h3, h4]

theorem unknown_label_silently_excluded_witness :
    ("Tumor" ∉ CLASS_LABELS) ∧
    bulkStep initTallies (ItemOutcome.success "Tumor" [1, 0, 0, 0]) = initTallies :=
  ⟨by decide,
   unknown_label_silently_excluded.1 initTallies "Tumor" [1, 0, 0, 0] (by decide)⟩

/-- A success outcome whose label belongs to the fixed label set. -/
def ItemOutcome.hasKnownLabel : ItemOutcome → Prop
  | .success label _ => label ∈ CLASS_LABELS
  | _ => True

instance : DecidablePred ItemOutcome.hasKnownLabel := by
  intro o
  cases o <;> simp [ItemOutcome.hasKnownLabel] <;> infer_instance

/-- Sum of the four per-class counters. -/
def sumCounts (t : Tallies) : Nat := t.glioma + t.meningioma + t.pituitary + t.noTumor

theorem sumCounts_bulkStep (t : Tallies) (o : ItemOutcome) (h : o.hasKnownLabel) :
    sumCounts (bulkStep t o) = sumCounts t + (if o.isSuccess then 1 else 0) := by
  cases o with
  | transportError => simp [bulkStep, ItemOutcome.isSuccess]
  | remoteError => simp [bulkStep, ItemOutcome.isSuccess]
  | success label probability =>
    simp only [ItemOutcome.hasKnownLabel, CLASS_LABELS, List.mem_cons,
      List.not_mem_nil, or_false] at h
    rcases h with rfl | rfl | rfl | rfl <;>
      (simp [bulkStep, sumCounts, ItemOutcome.isSuccess]; omega)

theorem sumCounts_foldl (items : List ItemOutcome) :
    ∀ t : Tallies, (∀ o ∈ items, o.hasKnownLabel) →
      sumCounts (items.foldl bulkStep t) =
        sumCounts t + items.countP (fun o => o.isSuccess) := by
  induction items with
  | nil => intro t _; simp
  | cons o rest ih =>
    intro t h
    have ho := h o (List.mem_cons_self o rest)
    have hrest := fun x hx => h x (List.mem_cons_of_mem o hx)
    simp only [List.foldl_cons, List.countP_cons, ih (bulkStep t o) hrest,
      sumCounts_bulkStep t o ho]
    cases hs : o.isSuccess <;> (simp [hs]; try omega)

theorem countP_success_add_fail (items : List ItemOutcome) :
    items.countP (fun o => o.isSuccess) + items.countP (fun o => !o.isSuccess) =
      items.length := by
  induction items with
  | nil => rfl
  | cons o rest ih =>
    cases h : o.isSuccess <;> simp [List.countP_cons, h] <;> omega

/-- C2: when every ok item carries one of the four labels, the four counts
of the aggregate record sum to exactly N − F (batch size minus failed
items); a failed item of either kind leaves the tallies untouched and the
loop continues. -/
theorem bulk_counts_sum_to_successes (modelName timestamp : String)
    (isGrayscaleEnabled : Bool) (items : List ItemOutcome)
    (h : ∀ o ∈ items, o.hasKnownLabel) :
    (processBulkImages modelName timestamp isGrayscaleEnabled items).glioma +
      (processBulkImages modelName timestamp isGrayscaleEnabled items).meningioma +
      (processBulkImages modelName timestamp isGrayscaleEnabled items).pituitary +
      (processBulkImages modelName timestamp isGrayscaleEnabled items).noTumor =
        items.length - items.countP (fun o => !o.isSuccess) ∧
    items.countP (fun o => !o.isSuccess) ≤ items.length ∧
    (∀ t : Tallies, bulkStep t ItemOutcome.transportError = t ∧
      bulkStep t ItemOutcome.remoteError = t) := by
  refine ⟨?_, List.countP_le_length _, fun t => ⟨rfl, rfl⟩⟩
  show sumCounts (bulkRun items) = _
  rw [bulkRun, sumCounts_foldl items initTallies h]
  have := countP_success_add_fail items
  simp only [initTallies, sumCounts]
  omega

theorem bulk_counts_sum_to_successes_witness :
    (∀ o ∈ [ItemOutcome.success "Glioma" [1, 0, 0, 0], ItemOutcome.transportError],
      o.hasKnownLabel) ∧
    (processBulkImages "model-a" "t0" false
        [ItemOutcome.success "Glioma" [1, 0, 0, 0], ItemOutcome.transportError]).glioma +
      (processBulkImages "model-a" "t0" false
        [ItemOutcome.success "Glioma" [1, 0, 0, 0], ItemOutcome.transportError]).meningioma +
      (processBulkImages "model-a" "t0" false
        [ItemOutcome.success "Glioma" [1, 0, 0, 0], ItemOutcome.transportError]).pituitary +
      (processBulkImages "model-a" "t0" false
        [ItemOutcome.success "Glioma" [1, 0, 0, 0], ItemOutcome.transportError]).noTumor =
      ([ItemOutcome.success "Glioma" [1, 0, 0, 0], ItemOutcome.transportError] :
        List ItemOutcome).length -
        ([ItemOutcome.success "Glioma" [1, 0, 0, 0], ItemOutcome.transportError] :
          List ItemOutcome).countP (fun o => !o.isSuccess) :=
  ⟨by decide,
   (bulk_counts_sum_to_successes "model-a" "t0" false
      [ItemOutcome.success "Glioma" [1, 0, 0, 0], ItemOutcome.transportError]
      (by decide)).1⟩

theorem foldl_bulkStep_id :
    ∀ (items : List ItemOutcome), (∀ o ∈ items, o.isSuccess = false) →
      ∀ t : Tallies, items.foldl bulkStep t = t
  | [], _, _ => rfl
  | o :: rest, h, t => by
    rw [List.foldl_cons, bulkStep_not_success t o (h o (List.mem_cons_self o rest))]
    exact foldl_bulkStep_id rest (fun x hx => h x (List.mem_cons_of_mem o hx)) t

theorem bulkRun_all_failures (items : List ItemOutcome)
    (h : ∀ o ∈ items, o.isSuccess = false) : bulkRun items = initTallies :=
  foldl_bulkStep_id items h initTallies

/-- C3: a class with no recorded samples gets mean confidence exactly `0`
(the guard prevents the division), for every batch — in particular every
batch in which all items fail, the empty batch included, yields `0` for
all four classes. -/
theorem zero_samples_mean_zero (modelName timestamp : String)
    (isGrayscaleEnabled : Bool) (items : List ItemOutcome) :
    ((bulkRun items).gliomaSamples = [] →
      (processBulkImages modelName timestamp isGrayscaleEnabled items).gliomaAccuracy = 0) ∧
    ((bulkRun items).meningiomaSamples = [] →
      (processBulkImages modelName timestamp isGrayscaleEnabled items).meningiomaAccuracy = 0) ∧
    ((bulkRun items).pituitarySamples = [] →
      (processBulkImages modelName timestamp isGrayscaleEnabled items).pituitaryAccuracy = 0) ∧
    ((bulkRun items).noTumorSamples = [] →
      (processBulkImages modelName timestamp isGrayscaleEnabled items).noTumorAccuracy = 0) ∧
    ((∀ o ∈ items, o.isSuccess = false) →
      (processBulkImages modelName timestamp isGrayscaleEnabled items).gliomaAccuracy = 0 ∧
      (processBulkImages modelName timestamp isGrayscaleEnabled items).meningiomaAccuracy = 0 ∧
      (processBulkImages modelName timestamp isGrayscaleEnabled items).pituitaryAccuracy = 0 ∧
      (processBulkImages modelName timestamp isGrayscaleEnabled items).noTumorAccuracy = 0) := by
  refine ⟨?_, ?_, ?_, ?_, ?_⟩
  · intro h
    show meanAccuracy (bulkRun items).gliomaSamples = 0
    rw [h]; rfl
  · intro h
    show meanAccuracy (bulkRun items).meningiomaSamples = 0
    rw [h]; rfl
  · intro h
    show meanAccuracy (bulkRun items).pituitarySamples = 0
    rw [h]; rfl
  · intro h
    show meanAccuracy (bulkRun items).noTumorSamples = 0
    rw [h]; rfl
  · intro h
    have hrun := bulkRun_all_failures items h
    refine ⟨?_, ?_, ?_, ?_⟩ <;>
      · show meanAccuracy _ = 0
        rw [hrun]
        rfl

theorem zero_samples_mean_zero_witness :
    ((bulkRun [ItemOutcome.transportError]).gliomaSamples = []) ∧
    (∀ o ∈ ([ItemOutcome.transportError] : List ItemOutcome), o.isSuccess = false) ∧
    (processBulkImages "model-a" "t0" false [ItemOutcome.transportError]).gliomaAccuracy = 0 ∧
    (processBulkImages "model-a" "t0" false [ItemOutcome.transportError]).noTumorAccuracy = 0 :=
  ⟨rfl, by decide,
   ((zero_samples_mean_zero "model-a" "t0" false [ItemOutcome.transportError]).2.2.2.2
      (by decide)).1,
   ((zero_samples_mean_zero "model-a" "t0" false [ItemOutcome.transportError]).2.2.2.2
      (by decide)).2.2.2⟩

theorem foldl_max_bounds (lo hi : ℚ) :
    ∀ (xs : List ℚ) (x : ℚ), lo ≤ x → x ≤ hi → (∀ p ∈ xs, lo ≤ p ∧ p ≤ hi) →
      lo ≤ xs.foldl max x ∧ xs.foldl max x ≤ hi
  | [], x, h1, h2, _ => ⟨h1, h2⟩
  | y :: ys, x, h1, h2, hall => by
    rw [List.foldl_cons]
    exact foldl_max_bounds lo hi ys (max x y)
      (le_trans h1 (le_max_left x y))
      (max_le h2 (hall y (List.mem_cons_self y ys)).2)
      (fun p hp => hall p (List.mem_cons_of_mem y hp))

theorem maxOf_bounds (probability : List ℚ) (hne : probability ≠ [])
    (h : ∀ p ∈ probability, 0 ≤ p ∧ p ≤ 1) :
    0 ≤ maxOf probability ∧ maxOf probability ≤ 1 := by
  cases probability with
  | nil => exact absurd rfl hne
  | cons x xs =>
    have hx := h x (List.mem_cons_self x xs)
    exact foldl_max_bounds 0 1 xs x hx.1 hx.2
      (fun p hp => h p (List.mem_cons_of_mem x hp))

/-- Every recorded confidence sample of every class lies in `[0,100]`. -/
def samplesBounded (t : Tallies) : Prop :=
  (∀ s ∈ t.gliomaSamples, 0 ≤ s ∧ s ≤ 100) ∧
  (∀ s ∈ t.meningiomaSamples, 0 ≤ s ∧ s ≤ 100) ∧
  (∀ s ∈ t.pituitarySamples, 0 ≤ s ∧ s ≤ 100) ∧
  (∀ s ∈ t.noTumorSamples, 0 ≤ s ∧ s ≤ 100)

theorem samplesBounded_step (t : Tallies) (o : ItemOutcome) (hwf : o.wf)
    (ht : samplesBounded t) : samplesBounded (bulkStep t o) := by
  cases o with
  | transportError => exact ht
  | remoteError => exact ht
  | success label probability =>
    obtain ⟨hne, hprob⟩ := hwf
    have hmax := maxOf_bounds probability hne hprob
    have hsample : 0 ≤ maxOf probability * 100 ∧ maxOf probability * 100 ≤ 100 := by
      constructor
      · nlinarith [hmax.1]
      · nlinarith [hmax.2]
    obtain ⟨h1, h2, h3, h4⟩ := ht
    simp only [bulkStep]
    split_ifs with c1 c2 c3 c4
    · refine ⟨?_, h2, h3, h4⟩
      intro s hs
      rcases List.mem_append.mp hs with hs | hs
      · exact h1 s hs
      · rw [List.mem_singleton.mp hs]; exact hsample
    · refine ⟨h1, ?_, h3, h4⟩
      intro s hs
      rcases List.mem_append.mp hs with hs | hs
      · exact h2 s hs
      · rw [List.mem_singleton.mp hs]; exact hsample
    · refine ⟨h1, h2, ?_, h4⟩
      intro s hs
      rcases List.mem_append.mp hs with hs | hs
      · exact h3 s hs
      · rw [List.mem_singleton.mp hs]; exact hsample
    · refine ⟨h1, h2, h3, ?_⟩
      intro s hs
      rcases List.mem_append.mp hs with hs | hs
      · exact h4 s hs
      · rw [List.mem_singleton.mp hs]; exact hsample
    · exact ⟨h1, h2, h3, h4⟩

theorem samplesBounded_foldl :
    ∀ (items : List ItemOutcome) (t : Tallies), (∀ o ∈ items, o.wf) →
      samplesBounded t → samplesBounded (items.foldl bulkStep t)
  | [], _, _, ht => ht
  | o :: rest, t, h, ht => by
    rw [List.foldl_cons]
    exact samplesBounded_foldl rest (bulkStep t o)
      (fun x hx => h x (List.mem_cons_of_mem o hx))
      (samplesBounded_step t o (h o (List.mem_cons_self o rest)) ht)

theorem samplesBounded_bulkRun (items : List ItemOutcome) (h : ∀ o ∈ items, o.wf) :
    samplesBounded (bulkRun items) :=
  samplesBounded_foldl items initTallies h (by simp [samplesBounded, initTallies])

theorem sumList_eq_sum (l : List ℚ) : sumList l = l.sum := by
  rw [sumList, List.sum_eq_foldl]

theorem round2_bounds (q : ℚ) (h0 : 0 ≤ q) (h100 : q ≤ 100) :
    0 ≤ round2 q ∧ round2 q ≤ 100 := by
  unfold round2
  constructor
  · apply div_nonneg _ (by norm_num)
    have hfloor : (0 : ℤ) ≤ ⌊q * 100 + 1 / 2⌋ := by
      apply Int.le_floor.mpr
      push_cast
      nlinarith
    exact_mod_cast hfloor
  · rw [div_le_iff₀ (by norm_num)]
    have hfloor : ⌊q * 100 + 1 / 2⌋ < 10001 := by
      apply Int.floor_lt.mpr
      push_cast
      nlinarith
    have hfloor' : ⌊q * 100 + 1 / 2⌋ ≤ 10000 := by omega
    calc ((⌊q * 100 + 1 / 2⌋ : ℤ) : ℚ) ≤ 10000 := by exact_mod_cast hfloor'
      _ = 100 * 100 := by norm_num

theorem meanAccuracy_spec (l : List ℚ) (hne : l ≠ [])
    (h : ∀ s ∈ l, 0 ≤ s ∧ s ≤ 100) :
    meanAccuracy l = round2 (sumList l / (l.length : ℚ)) ∧
      0 ≤ meanAccuracy l ∧ meanAccuracy l ≤ 100 := by
  have hlen : 0 < l.length := List.length_pos.mpr hne
  have hq : (0 : ℚ) < (l.length : ℚ) := by exact_mod_cast hlen
  have hsum0 : 0 ≤ l.sum := List.sum_nonneg (fun x hx => (h x hx).1)
  have hsum100 : l.sum ≤ (l.length : ℚ) * 100 := by
    have := List.sum_le_card_nsmul l 100 (fun x hx => (h x hx).2)
    simpa [nsmul_eq_mul] using this
  have hmean0 : 0 ≤ l.sum / (l.length : ℚ) := div_nonneg hsum0 hq.le
  have hmean100 : l.sum / (l.length : ℚ) ≤ 100 := by
    rw [div_le_iff₀ hq]
    linarith
  have heq : meanAccuracy l = round2 (sumList l / (l.length : ℚ)) := by
    simp [meanAccuracy, hlen]
  refine ⟨heq, ?_, ?_⟩
  · rw [heq, sumList_eq_sum]
    exact (round2_bounds _ hmean0 hmean100).1
  · rw [heq, sumList_eq_sum]
    exact (round2_bounds _ hmean0 hmean100).2

/-- C4: for every class with at least one sample — each sample being
`max(probability) * 100` of an ok item whose probabilities lie in `[0,1]` —
the record's accuracy equals the arithmetic mean of that class's samples
rounded to two decimals, and lies in `[0,100]`. -/
theorem bulk_mean_confidence (modelName timestamp : String)
    (isGrayscaleEnabled : Bool) (items : List ItemOutcome)
    (hwf : ∀ o ∈ items, o.wf) :
    ((bulkRun items).gliomaSamples ≠ [] →
      (processBulkImages modelName timestamp isGrayscaleEnabled items).gliomaAccuracy =
        round2 (sumList (bulkRun items).gliomaSamples /
          (((bulkRun items).gliomaSamples.length : ℚ))) ∧
      0 ≤ (processBulkImages modelName timestamp isGrayscaleEnabled items).gliomaAccuracy ∧
      (processBulkImages modelName timestamp isGrayscaleEnabled items).gliomaAccuracy ≤ 100) ∧
    ((bulkRun items).meningiomaSamples ≠ [] →
      (processBulkImages modelName timestamp isGrayscaleEnabled items).meningiomaAccuracy =
        round2 (sumList (bulkRun items).meningiomaSamples /
          (((bulkRun items).meningiomaSamples.length : ℚ))) ∧
      0 ≤ (processBulkImages modelName timestamp isGrayscaleEnabled items).meningiomaAccuracy ∧
      (processBulkImages modelName timestamp isGrayscaleEnabled items).meningiomaAccuracy ≤ 100) ∧
    ((bulkRun items).pituitarySamples ≠ [] →
      (processBulkImages modelName timestamp isGrayscaleEnabled items).pituitaryAccuracy =
        round2 (sumList (bulkRun items).pituitarySamples /
          (((bulkRun items).pituitarySamples.length : ℚ))) ∧
      0 ≤ (processBulkImages modelName timestamp isGrayscaleEnabled items).pituitaryAccuracy ∧
      (processBulkImages modelName timestamp isGrayscaleEnabled items).pituitaryAccuracy ≤ 100) ∧
    ((bulkRun items).noTumorSamples ≠ [] →
      (processBulkImages modelName timestamp isGrayscaleEnabled items).noTumorAccuracy =
        round2 (sumList (bulkRun items).noTumorSamples /
          (((bulkRun items).noTumorSamples.length : ℚ))) ∧
      0 ≤ (processBulkImages modelName timestamp isGrayscaleEnabled items).noTumorAccuracy ∧
      (processBulkImages modelName timestamp isGrayscaleEnabled items).noTumorAccuracy ≤ 100) := by
  obtain ⟨hb1, hb2, hb3, hb4⟩ := samplesBounded_bulkRun items hwf
  refine ⟨fun hne => ?_, fun hne => ?_, fun hne => ?_, fun hne => ?_⟩
  · exact meanAccuracy_spec _ hne hb1
  · exact meanAccuracy_spec _ hne hb2
  · exact meanAccuracy_spec _ hne hb3
  · exact meanAccuracy_spec _ hne hb4

theorem bulk_mean_confidence_witness :
    (∀ o ∈ ([ItemOutcome.success "Glioma" [1, 0, 0, 0]] : List ItemOutcome), o.wf) ∧
    (bulkRun [ItemOutcome.success "Glioma" [1, 0, 0, 0]]).gliomaSamples ≠ [] ∧
    (0 ≤ (processBulkImages "model-a" "t0" false
        [ItemOutcome.success "Glioma" [1, 0, 0, 0]]).gliomaAccuracy ∧
      (processBulkImages "model-a" "t0" false
        [ItemOutcome.success "Glioma" [1, 0, 0, 0]]).gliomaAccuracy ≤ 100) := by
  have hwf : ∀ o ∈ ([ItemOutcome.success "Glioma" [1, 0, 0, 0]] : List ItemOutcome), o.wf := by
    intro o ho
    rw [List.mem_singleton.mp ho]
    refine ⟨by simp, ?_⟩
    intro p hp
    fin_cases hp <;> norm_num
  have hne : (bulkRun [ItemOutcome.success "Glioma" [1, 0, 0, 0]]).gliomaSamples ≠ [] := by
    simp [bulkRun, bulkStep, initTallies]
  exact ⟨hwf, hne,
    ((bulk_mean_confidence "model-a" "t0" false
      [ItemOutcome.success "Glioma" [1, 0, 0, 0]] hwf).1 hne).2⟩

end NeuraVeil
